import Mathlib

/-!
A shallow embedding of `src/xray_labeler.py` (the MedSec X-ray labeling
tool).  The program is a single-class interactive labeler: it loads an
existing CSV annotation layer at startup, scans a directory for DICOM
(falling back to JPG/PNG) files, lets the user draw one rectangle per
image, and rewrites the CSV on save, merging the existing layer with the
session layer (session values win).

Modelling conventions:
* Python floats are modelled as `Rat`.
* A CSV file's content is a `List (List String)` of its rows (the `csv`
  module's field splitting/quoting round-trips fields, so rows-of-fields
  is the faithful interface); a missing file is `Option.none`.
* A Python `dict` keyed by filename is an insertion-ordered association
  list (`AnnDict`); assignment replaces in place when the key is present
  and appends otherwise, exactly dict semantics on its unique-key values.
* Python exceptions that escape (StopIteration on an empty file,
  ValueError from `float`, `sys.exit(1)`) are `Except` errors.
* The filesystem seen by `glob` is the list of file paths, in traversal
  order, that a recursive walk of the input directory yields.
-/

namespace XRayLabeler

/-- One bounding box: `x`, `y` top-left corner, and the box `width` and
`height`, as stored in the per-file dict values of the Python class. -/
structure Ann where
  x : Rat
  y : Rat
  width : Rat
  height : Rat
deriving DecidableEq, Repr

/-- An insertion-ordered Python dict from filename to box. -/
abbrev AnnDict := List (String × Ann)

/-- Python dict lookup `d[k]` / `k in d`: the entry with key `k`
(keys are unique in every dict the program builds). -/
def dictLookup : AnnDict → String → Option Ann
  | [], _ => none
  | p :: t, k => if p.1 = k then some p.2 else dictLookup t k

/-- Python dict assignment `d[k] = v`: replace the value in place when
the key is present (insertion order kept), append otherwise. -/
def dictInsert : AnnDict → String → Ann → AnnDict
  | [], k, v => [(k, v)]
  | p :: t, k, v => if p.1 = k then (k, v) :: t else p :: dictInsert t k v

/-- The keys of a dict, in order. -/
def dictKeys (d : AnnDict) : List String := d.map Prod.fst

/-- Python `\x7b**a, **b\x7d`: start from `a` and assign every entry of `b`
in order, so `b` overrides `a` on shared keys and `b`-only keys are
appended after `a`'s (source line 187). -/
def dictMerge (a b : AnnDict) : AnnDict :=
  b.foldl (fun acc p => dictInsert acc p.1 p.2) a

/-- Numeric value of a digit string, most significant first. -/
def digitsVal (cs : List Char) : Nat :=
  cs.foldl (fun acc c => acc * 10 + (c.toNat - 48)) 0

/-- The decimal fragment of Python `float(s)` on an unsigned string:
digits, optionally split by one point; at least one digit required.
(`float` also accepts exponents, inf/nan and surrounding whitespace;
the program only ever meets plain decimal text, which this covers.) -/
def parseUnsigned (cs : List Char) : Option Rat :=
  let intPart := cs.takeWhile Char.isDigit
  match cs.dropWhile Char.isDigit with
  | [] =>
    if intPart.isEmpty then none else some (digitsVal intPart : Rat)
  | '.' :: frac =>
    if frac.all Char.isDigit && !(intPart.isEmpty && frac.isEmpty) then
      some ((digitsVal intPart : Rat) + (digitsVal frac : Rat) / ((10 : Rat) ^ frac.length))
    else none
  | _ => none

/-- Python `float(s)`: an optional sign before the unsigned decimal;
`none` models the ValueError raised on unparsable text. -/
def parseFloat (s : String) : Option Rat :=
  match s.toList with
  | '-' :: rest => (parseUnsigned rest).map (fun q => -q)
  | '+' :: rest => parseUnsigned rest
  | cs => parseUnsigned cs

/-- Errors that escape `load_existing_annotations` (source lines 24-38):
`next(reader)` raising StopIteration on a file with no rows, and
`float(row[i])` raising ValueError on a non-numeric field. -/
inductive LoadErr where
  | emptyFile
  | badFloat
deriving DecidableEq, Repr

/-- The four `float(row[1]) .. float(row[4])` conversions of one CSV row
(source lines 34-37); `none` when any raises ValueError. -/
def parseRowFields (row : List String) : Option Ann := do
  let x ← parseFloat (row.getD 1 "")
  let y ← parseFloat (row.getD 2 "")
  let width ← parseFloat (row.getD 3 "")
  let height ← parseFloat (row.getD 4 "")
  pure ⟨x, y, width, height⟩

/-- The row loop of `load_existing_annotations` (source lines 30-38):
rows with fewer than 5 fields are skipped, the rest are parsed and
assigned into the dict under `row[0]`. -/
def loadRows (d : AnnDict) : List (List String) → Except LoadErr AnnDict
  | [] => Except.ok d
  | row :: rest =>
    if 5 ≤ row.length then
      match parseRowFields row with
      | some a => loadRows (dictInsert d (row.headD "") a) rest
      | none => Except.error LoadErr.badFloat
    else loadRows d rest

/-- `load_existing_annotations` (source lines 24-38): no file means an
empty existing layer; a file with zero rows makes `next(reader)` raise
StopIteration; otherwise the first row is the header and the remaining
rows are folded into the dict. -/
def load_existing_annotations : Option (List (List String)) → Except LoadErr AnnDict
  | none => Except.ok []
  | some [] => Except.error LoadErr.emptyFile
  | some (_header :: rows) => loadRows [] rows

/-- Does the path's text end with `ext`?  Models a recursive glob
pattern match on the extension. -/
def hasSuffix (ext f : String) : Bool :=
  decide (f.toList.reverse.take ext.toList.length = ext.toList.reverse)

/-- `glob` match for the pattern of source line 42. -/
def isDicomFile (f : String) : Bool := hasSuffix ".dcm" f

/-- `glob` match for the first pattern of source line 46. -/
def isJpgFile (f : String) : Bool := hasSuffix ".jpg" f

/-- `glob` match for the second pattern of source line 46. -/
def isPngFile (f : String) : Bool := hasSuffix ".png" f

/-- `sys.exit(1)` in `scan_directory` (source line 50). -/
inductive ScanErr where
  | noFiles
deriving DecidableEq, Repr

/-- `scan_directory` (source lines 40-54): keep the DICOM matches; only
when there are none, fall back to the JPG matches followed by the PNG
matches; when that is also empty, exit with status 1. -/
def scan_directory (files : List String) : Except ScanErr (List String) :=
  let dicom := files.filter isDicomFile
  if dicom.isEmpty then
    let fallback := files.filter isJpgFile ++ files.filter isPngFile
    if fallback.isEmpty then Except.error ScanErr.noFiles
    else Except.ok fallback
  else Except.ok dicom

/-- The interactive state of the `XRayLabeler` object: the scanned file
list, the current index, the session layer `annotations`, and the
startup layer `existing_annotations`. -/
structure Session where
  files : List String
  currentIndex : Nat
  annotations : AnnDict
  existing_annotations : AnnDict
deriving DecidableEq, Repr

/-- The file name the viewer is on: `self.dicom_files[self.current_index].name`
(total here via a default; every reachable state has a valid index). -/
def currentFile (s : Session) : String := s.files.getD s.currentIndex ""

/-- The state effect of `load_current_image` (source lines 139-141): when
the current file decodes and has an entry in the existing layer, that
entry is copied into the session layer. -/
def load_current_image_update (decodeOk : String → Bool) (s : Session) : Session :=
  if decodeOk (currentFile s) then
    match dictLookup s.existing_annotations (currentFile s) with
    | some a => { s with annotations := dictInsert s.annotations (currentFile s) a }
    | none => s
  else s

/-- `next_image` (source lines 168-172): advance only when strictly
before the last index, then re-render (the comparison is on Python
ints, hence the signed subtraction). -/
def next_image (decodeOk : String → Bool) (s : Session) : Session :=
  if (s.currentIndex : Int) < (s.files.length : Int) - 1 then
    load_current_image_update decodeOk { s with currentIndex := s.currentIndex + 1 }
  else s

/-- `previous_image` (source lines 174-178): step back only when the
index is positive, then re-render. -/
def previous_image (decodeOk : String → Bool) (s : Session) : Session :=
  if 0 < s.currentIndex then
    load_current_image_update decodeOk { s with currentIndex := s.currentIndex - 1 }
  else s

/-- `on_select` (source lines 92-108): normalize the two drag corners to
min-corner plus absolute extents and assign them to the current file in
the session layer. -/
def on_select (s : Session) (x1 y1 x2 y2 : Rat) : Session :=
  let x := min x1 x2
  let y := min y1 y2
  let width := |x2 - x1|
  let height := |y2 - y1|
  { s with annotations := dictInsert s.annotations (currentFile s) ⟨x, y, width, height⟩ }

/-- The header row written at source line 184. -/
def headerRow : List String := ["filename", "x", "y", "width", "height"]

/-- The data rows `save_annotations` writes (source lines 180-196): the
merge of the two layers, session layer winning, one CSV row per entry
in dict order.  The bytes on disk are the deterministic rendering of
`headerRow` followed by these rows. -/
def save_annotations (s : Session) : AnnDict :=
  dictMerge s.existing_annotations s.annotations

/-- The user events the matplotlib widgets deliver. -/
inductive Event where
  | next
  | prev
  | select (x1 y1 x2 y2 : Rat)
  | save
deriving DecidableEq, Repr

/-- One event-handler dispatch: the successor state and, for `save`, the
data rows written to the output file. -/
def step (decodeOk : String → Bool) (s : Session) : Event → Session × Option AnnDict
  | Event.next => (next_image decodeOk s, none)
  | Event.prev => (previous_image decodeOk s, none)
  | Event.select x1 y1 x2 y2 => (on_select s x1 y1 x2 y2, none)
  | Event.save => (s, some (save_annotations s))

/-- A fatal startup error: `__init__` dying while loading the existing
file, or `scan_directory` calling `sys.exit(1)`.  Either aborts the
process with a non-zero status before any event is handled. -/
inductive ProgErr where
  | load (e : LoadErr)
  | scan (e : ScanErr)
deriving DecidableEq, Repr

/-- A whole run of `main`: load the existing layer, scan the directory,
render the first image, then handle the user's events.  The second
component of the result collects every file content written by a save;
an error return means the process exited non-zero having written
nothing. -/
def runProgram (decodeOk : String → Bool) (existingFile : Option (List (List String)))
    (fsFiles : List String) (events : List Event) :
    Except ProgErr (Session × List AnnDict) := do
  let ex ← (load_existing_annotations existingFile).mapError ProgErr.load
  let fs ← (scan_directory fsFiles).mapError ProgErr.scan
  let s0 := load_current_image_update decodeOk
    { files := fs, currentIndex := 0, annotations := [], existing_annotations := ex }
  Except.ok (events.foldl
    (fun acc e =>
      let r := step decodeOk acc.1 e
      (r.1, acc.2 ++ r.2.toList))
    (s0, []))

/-- Largest pixel value, `image.max()` of a decoded grayscale image. -/
def maxPixel (image : List Nat) : Nat := image.foldr max 0

/-- One pixel of `(image / image.max() * 255).astype(np.uint8)` (source
line 134): float division, scale to 255, truncate to uint8.  Division
by a zero maximum is the failure the guard must prevent. -/
def rescalePixel (m p : Nat) : Option Nat :=
  if m = 0 then none
  else some ((((p : Rat) / (m : Rat)) * 255).floor.toNat % 256)

/-- Elementwise rescale of the whole pixel array. -/
def rescaleAll (m : Nat) : List Nat → Option (List Nat)
  | [] => some []
  | p :: t => do
    let q ← rescalePixel m p
    let rest ← rescaleAll m t
    pure (q :: rest)

/-- The display normalization of `load_current_image` (source lines
132-134): rescale to 0-255 only when the maximum pixel value is
positive, else leave the image as is. -/
def normalize_for_display (image : List Nat) : Option (List Nat) :=
  if 0 < maxPixel image then rescaleAll (maxPixel image) image
  else some image

/-- One rendered CSV data row of the output file. -/
def renderRow (r : Rat → String) (p : String × Ann) : List String :=
  [p.1, r p.2.x, r p.2.y, r p.2.width, r p.2.height]

/-- The full CSV content a save writes, given the numeric-to-text
conversion `r` of the host environment. -/
def renderCsv (r : Rat → String) (d : AnnDict) : List (List String) :=
  headerRow :: d.map (renderRow r)

/-! ### Lemmas about the dict model -/

theorem dictKeys_nil : dictKeys [] = [] := rfl

theorem dictKeys_cons (p : String × Ann) (t : AnnDict) :
    dictKeys (p :: t) = p.1 :: dictKeys t := rfl

theorem dictKeys_append (d e : AnnDict) :
    dictKeys (d ++ e) = dictKeys d ++ dictKeys e := List.map_append _ d e

theorem dictLookup_insert_self (d : AnnDict) (k : String) (v : Ann) :
    dictLookup (dictInsert d k v) k = some v := by
  induction d with
  | nil => simp [dictInsert, dictLookup]
  | cons p t ih =>
    by_cases h : p.1 = k
    · simp [dictInsert, h, dictLookup]
    · simp [dictInsert, h, dictLookup, ih]

theorem dictLookup_insert_ne (d : AnnDict) (k k' : String) (v : Ann) (h : k' ≠ k) :
    dictLookup (dictInsert d k v) k' = dictLookup d k' := by
  have h' : ¬k = k' := fun he => h he.symm
  induction d with
  | nil => simp [dictInsert, dictLookup, h']
  | cons p t ih =>
    by_cases hp : p.1 = k
    · subst hp
      simp [dictInsert, dictLookup, h']
    · simp [dictInsert, hp, dictLookup, ih]

theorem dictKeys_insert (d : AnnDict) (k : String) (v : Ann) :
    dictKeys (dictInsert d k v) =
      if k ∈ dictKeys d then dictKeys d else dictKeys d ++ [k] := by
  induction d with
  | nil => simp [dictInsert, dictKeys]
  | cons p t ih =>
    by_cases h : p.1 = k
    · subst h
      simp [dictInsert, dictKeys_cons]
    · have hne : ¬k = p.1 := fun he => h he.symm
      have hL : dictKeys (p :: dictInsert t k v) = p.1 :: dictKeys (dictInsert t k v) :=
        dictKeys_cons _ _
      simp only [dictInsert, h, if_false, hL, ih, dictKeys_cons]
      by_cases hm : k ∈ dictKeys t
      · simp [hm, List.mem_cons, hne]
      · simp [hm, List.mem_cons, hne]

theorem mem_dictKeys_insert (d : AnnDict) (k k' : String) (v : Ann) :
    k' ∈ dictKeys (dictInsert d k v) ↔ k' ∈ dictKeys d ∨ k' = k := by
  rw [dictKeys_insert]
  by_cases h : k ∈ dictKeys d
  · simp only [h, if_true]
    constructor
    · exact Or.inl
    · rintro (h' | rfl)
      · exact h'
      · exact h
  · simp [h]

theorem nodup_dictKeys_insert (d : AnnDict) (k : String) (v : Ann)
    (hd : (dictKeys d).Nodup) : (dictKeys (dictInsert d k v)).Nodup := by
  rw [dictKeys_insert]
  by_cases h : k ∈ dictKeys d
  · simpa [h] using hd
  · simp only [h, if_false]
    rw [List.nodup_append]
    refine ⟨hd, List.nodup_singleton k, ?_⟩
    intro a ha hb
    rw [List.mem_singleton] at hb
    exact h (hb ▸ ha)

theorem dictLookup_eq_none_of_not_mem (d : AnnDict) (k : String)
    (h : k ∉ dictKeys d) : dictLookup d k = none := by
  induction d with
  | nil => rfl
  | cons p t ih =>
    rw [dictKeys_cons, List.mem_cons] at h
    push_neg at h
    have hne : ¬p.1 = k := fun he => h.1 he.symm
    simp only [dictLookup, hne, if_false]
    exact ih h.2

theorem mem_dictKeys_of_dictLookup (d : AnnDict) (k : String) (v : Ann)
    (h : dictLookup d k = some v) : k ∈ dictKeys d := by
  induction d with
  | nil => simp [dictLookup] at h
  | cons p t ih =>
    rw [dictKeys_cons]
    by_cases hp : p.1 = k
    · exact hp ▸ List.mem_cons_self p.1 (dictKeys t)
    · simp only [dictLookup, hp, if_false] at h
      exact List.mem_cons_of_mem _ (ih h)

theorem dictLookup_of_mem (d : AnnDict) (k : String) (v : Ann)
    (hd : (dictKeys d).Nodup) (h : (k, v) ∈ d) : dictLookup d k = some v := by
  induction d with
  | nil => simp at h
  | cons p t ih =>
    obtain ⟨a, b⟩ := p
    rw [dictKeys_cons, List.nodup_cons] at hd
    rcases List.mem_cons.mp h with h' | h'
    · rw [← h']
      simp [dictLookup]
    · have hak : ¬a = k := by
        intro hk
        subst hk
        exact hd.1 (List.mem_map.mpr ⟨(a, v), h', rfl⟩)
      simp only [dictLookup, hak, if_false]
      exact ih hd.2 h'

theorem dictInsert_append (d : AnnDict) (k : String) (v : Ann)
    (h : k ∉ dictKeys d) : dictInsert d k v = d ++ [(k, v)] := by
  induction d with
  | nil => rfl
  | cons p t ih =>
    rw [dictKeys_cons, List.mem_cons] at h
    push_neg at h
    have hne : ¬p.1 = k := fun he => h.1 he.symm
    simp only [dictInsert, hne, if_false, List.cons_append, List.cons.injEq, true_and]
    exact ih h.2

theorem dictInsert_eq_self (d : AnnDict) (k : String) (v : Ann)
    (hd : (dictKeys d).Nodup) (h : dictLookup d k = some v) :
    dictInsert d k v = d := by
  induction d with
  | nil => simp [dictLookup] at h
  | cons p t ih =>
    obtain ⟨a, b⟩ := p
    rw [dictKeys_cons, List.nodup_cons] at hd
    by_cases hp : a = k
    · subst hp
      simp only [dictLookup, if_pos] at h
      rw [Option.some_inj] at h
      simp [dictInsert, h]
    · simp only [dictLookup, hp, if_false] at h
      simp only [dictInsert, hp, if_false, List.cons.injEq, true_and]
      exact ih hd.2 h

theorem dictMerge_nil (a : AnnDict) : dictMerge a [] = a := rfl

theorem dictMerge_cons (a : AnnDict) (p : String × Ann) (t : AnnDict) :
    dictMerge a (p :: t) = dictMerge (dictInsert a p.1 p.2) t := rfl

theorem nodup_dictKeys_merge (b : AnnDict) :
    ∀ a : AnnDict, (dictKeys a).Nodup → (dictKeys (dictMerge a b)).Nodup := by
  induction b with
  | nil => intro a ha; simpa [dictMerge_nil] using ha
  | cons p t ih =>
    intro a ha
    rw [dictMerge_cons]
    exact ih _ (nodup_dictKeys_insert a p.1 p.2 ha)

theorem mem_dictKeys_merge (b : AnnDict) (k : String) :
    ∀ a : AnnDict, (k ∈ dictKeys (dictMerge a b) ↔ k ∈ dictKeys a ∨ k ∈ dictKeys b) := by
  induction b with
  | nil => intro a; simp [dictMerge_nil, dictKeys_nil]
  | cons p t ih =>
    intro a
    rw [dictMerge_cons, ih, mem_dictKeys_insert, dictKeys_cons, List.mem_cons]
    tauto

theorem dictLookup_merge (b : AnnDict) (k : String) (hb : (dictKeys b).Nodup) :
    ∀ a : AnnDict,
      dictLookup (dictMerge a b) k =
        match dictLookup b k with
        | some v => some v
        | none => dictLookup a k := by
  induction b with
  | nil => intro a; simp [dictMerge_nil, dictLookup]
  | cons p t ih =>
    intro a
    rw [dictKeys_cons, List.nodup_cons] at hb
    rw [dictMerge_cons, ih hb.2]
    by_cases hp : p.1 = k
    · have ht : dictLookup t k = none :=
        dictLookup_eq_none_of_not_mem t k (hp ▸ hb.1)
      have h1 : dictLookup (dictInsert a p.1 p.2) k = some p.2 := by
        rw [← hp]
        exact dictLookup_insert_self a p.1 p.2
      have h2 : dictLookup (p :: t) k = some p.2 := by simp [dictLookup, hp]
      simp only [ht, h1, h2]
    · have h1 : dictLookup (dictInsert a p.1 p.2) k = dictLookup a k :=
        dictLookup_insert_ne a p.1 k p.2 (fun he => hp he.symm)
      have h2 : dictLookup (p :: t) k = dictLookup t k := by simp [dictLookup, hp]
      simp only [h1, h2]

theorem dictMerge_eq_left (b : AnnDict) :
    ∀ a : AnnDict, (dictKeys a).Nodup → (dictKeys b).Nodup →
      (∀ k v, dictLookup b k = some v → dictLookup a k = some v) →
      dictMerge a b = a := by
  induction b with
  | nil => intro a _ _ _; exact dictMerge_nil a
  | cons p t ih =>
    intro a ha hb h
    rw [dictKeys_cons, List.nodup_cons] at hb
    have hp : dictLookup a p.1 = some p.2 := h p.1 p.2 (by simp [dictLookup])
    rw [dictMerge_cons, dictInsert_eq_self a p.1 p.2 ha hp]
    refine ih a ha hb.2 (fun k v hk => h k v ?_)
    have hne : ¬p.1 = k := by
      intro he
      exact hb.1 (he ▸ mem_dictKeys_of_dictLookup t k v hk)
    simp [dictLookup, hne, hk]

theorem dictLookup_insert_isSome (d : AnnDict) (k k' : String) (v : Ann)
    (h : (dictLookup d k').isSome) : (dictLookup (dictInsert d k v) k').isSome := by
  by_cases he : k' = k
  · subst he
    rw [dictLookup_insert_self]
    rfl
  · rw [dictLookup_insert_ne d k k' v he]
    exact h

/-! ### Lemmas about loading rows -/

theorem loadRows_filter (rows : List (List String)) :
    ∀ d : AnnDict,
      loadRows d rows = loadRows d (rows.filter (fun row => decide (5 ≤ row.length))) := by
  induction rows with
  | nil => intro d; rfl
  | cons row rest ih =>
    intro d
    by_cases h : 5 ≤ row.length
    · rcases hp : parseRowFields row with _ | a <;>
        simp [List.filter_cons, h, loadRows, hp, ih]
    · simp [List.filter_cons, h, loadRows, ih]

theorem parseRowFields_renderRow (r : Rat → String) (p : String × Ann)
    (hx : parseFloat (r p.2.x) = some p.2.x)
    (hy : parseFloat (r p.2.y) = some p.2.y)
    (hw : parseFloat (r p.2.width) = some p.2.width)
    (hh : parseFloat (r p.2.height) = some p.2.height) :
    parseRowFields (renderRow r p) = some p.2 := by
  simp [parseRowFields, renderRow, List.getD, hx, hy, hw, hh]

theorem loadRows_renderCsv (r : Rat → String) (R : AnnDict) :
    ∀ d : AnnDict,
      (∀ p ∈ R, parseFloat (r p.2.x) = some p.2.x ∧ parseFloat (r p.2.y) = some p.2.y ∧
        parseFloat (r p.2.width) = some p.2.width ∧ parseFloat (r p.2.height) = some p.2.height) →
      (dictKeys (d ++ R)).Nodup →
      loadRows d (R.map (renderRow r)) = Except.ok (d ++ R) := by
  induction R with
  | nil => intro d _ _; simp [loadRows]
  | cons p t ih =>
    intro d hr hnd
    have hp := hr p (List.mem_cons_self p t)
    have hparse : parseRowFields (renderRow r p) = some p.2 :=
      parseRowFields_renderRow r p hp.1 hp.2.1 hp.2.2.1 hp.2.2.2
    have hlen : 5 ≤ (renderRow r p).length := by simp [renderRow]
    have hmem : p.1 ∉ dictKeys d := by
      rw [dictKeys_append, dictKeys_cons] at hnd
      intro hin
      rcases List.nodup_append.mp hnd with ⟨_, _, hdisj⟩
      exact hdisj hin (List.mem_cons_self _ _)
    rw [List.map_cons]
    simp only [loadRows, hlen, if_true, hparse]
    have hhead : (renderRow r p).headD "" = p.1 := rfl
    rw [hhead, dictInsert_append d p.1 p.2 hmem]
    have hassoc : (d ++ [(p.1, p.2)]) ++ t = d ++ p :: t := by
      rw [List.append_assoc]
      rfl
    rw [← hassoc]
    exact ih (d ++ [(p.1, p.2)]) (fun q hq => hr q (List.mem_cons_of_mem p hq))
      (by rw [hassoc]; exact hnd)

theorem loadRows_ok_of_parses (rows : List (List String)) :
    ∀ d : AnnDict, (∀ row ∈ rows, 5 ≤ row.length → (parseRowFields row).isSome) →
      ∃ d', loadRows d rows = Except.ok d'
        ∧ (∀ k, (dictLookup d k).isSome → (dictLookup d' k).isSome)
        ∧ (∀ row ∈ rows, 5 ≤ row.length → (dictLookup d' (row.headD "")).isSome) := by
  induction rows with
  | nil => intro d _; exact ⟨d, rfl, fun k h => h, by simp⟩
  | cons row rest ih =>
    intro d h
    by_cases hl : 5 ≤ row.length
    · have hs := h row (List.mem_cons_self row rest) hl
      rcases hp : parseRowFields row with _ | a
      · rw [hp] at hs
        simp at hs
      · obtain ⟨d', hd', hpres, hacc⟩ := ih (dictInsert d (row.headD "") a)
          (fun q hq hql => h q (List.mem_cons_of_mem row hq) hql)
        refine ⟨d', ?_, ?_, ?_⟩
        · simp only [loadRows, hl, if_true, hp]
          exact hd'
        · intro k hk
          exact hpres k (dictLookup_insert_isSome d (row.headD "") k a hk)
        · intro q hq hql
          rcases List.mem_cons.mp hq with rfl | hq'
          · refine hpres _ ?_
            rw [dictLookup_insert_self]
            rfl
          · exact hacc q hq' hql
    · obtain ⟨d', hd', hpres, hacc⟩ := ih d
        (fun q hq hql => h q (List.mem_cons_of_mem row hq) hql)
      refine ⟨d', ?_, hpres, ?_⟩
      · simp only [loadRows, hl, if_false]
        exact hd'
      · intro q hq hql
        rcases List.mem_cons.mp hq with rfl | hq'
        · exact absurd hql hl
        · exact hacc q hq' hql

/-! ### Lemmas about rescaling and the session state -/

theorem rescaleAll_isSome (m : Nat) (hm : m ≠ 0) (l : List Nat) :
    (rescaleAll m l).isSome := by
  induction l with
  | nil => rfl
  | cons p t ih =>
    simp only [rescaleAll]
    rw [show rescalePixel m p = some ((((p : Rat) / (m : Rat)) * 255).floor.toNat % 256) from
      by simp [rescalePixel, hm]]
    rcases ht : rescaleAll m t with _ | rest
    · rw [ht] at ih
      exact absurd ih (by simp)
    · simp [ht]

theorem load_current_image_update_files (dec : String → Bool) (s : Session) :
    (load_current_image_update dec s).files = s.files := by
  simp only [load_current_image_update]
  split
  · split <;> rfl
  · rfl

theorem load_current_image_update_index (dec : String → Bool) (s : Session) :
    (load_current_image_update dec s).currentIndex = s.currentIndex := by
  simp only [load_current_image_update]
  split
  · split <;> rfl
  · rfl

theorem hasSuffix_excl (f e1 e2 : String)
    (hlen : e1.toList.length = e2.toList.length)
    (hne : e1.toList.reverse ≠ e2.toList.reverse)
    (h : hasSuffix e1 f = true) : hasSuffix e2 f = false := by
  rw [hasSuffix] at h ⊢
  have h' := of_decide_eq_true h
  rw [decide_eq_false_iff_not]
  intro hj
  rw [hlen] at h'
  exact hne (h'.symm.trans hj)

theorem dicom_not_jpg (f : String) (h : isDicomFile f = true) : isJpgFile f = false :=
  hasSuffix_excl f ".dcm" ".jpg" rfl (by decide) h

theorem dicom_not_png (f : String) (h : isDicomFile f = true) : isPngFile f = false :=
  hasSuffix_excl f ".dcm" ".png" rfl (by decide) h

/-! ### The claims -/

/-- C1: the rows a save writes are the two layers merged with the session
layer taking precedence: one row per file name, a file name is present
iff it is in either layer, a name bound in the session layer keeps the
session value, and a name absent from the session layer keeps the
existing layer's value. -/
theorem c1_save_merges_layers (s : Session) (k : String) (v : Ann)
    (hex : (dictKeys s.existing_annotations).Nodup)
    (hnew : (dictKeys s.annotations).Nodup) :
    (dictKeys (save_annotations s)).Nodup
    ∧ (k ∈ dictKeys (save_annotations s) ↔
        k ∈ dictKeys s.existing_annotations ∨ k ∈ dictKeys s.annotations)
    ∧ (dictLookup s.annotations k = some v → dictLookup (save_annotations s) k = some v)
    ∧ (dictLookup s.annotations k = none →
        dictLookup (save_annotations s) k = dictLookup s.existing_annotations k) := by
  have hm := dictLookup_merge s.annotations k hnew s.existing_annotations
  refine ⟨nodup_dictKeys_merge _ _ hex, mem_dictKeys_merge _ _ _, ?_, ?_⟩
  · intro h
    rw [save_annotations, hm, h]
  · intro h
    rw [save_annotations, hm, h]

/-- Witness for C1 at a state where the session layer overrides one of
two existing rows. -/
theorem c1_save_merges_layers_witness :
    dictLookup (save_annotations ⟨["a.dcm"], 0, [("a.dcm", ⟨5, 5, 5, 5⟩)],
        [("a.dcm", ⟨1, 1, 1, 1⟩), ("b.dcm", ⟨2, 2, 2, 2⟩)]⟩) "a.dcm" = some ⟨5, 5, 5, 5⟩ :=
  (c1_save_merges_layers ⟨["a.dcm"], 0, [("a.dcm", ⟨5, 5, 5, 5⟩)],
      [("a.dcm", ⟨1, 1, 1, 1⟩), ("b.dcm", ⟨2, 2, 2, 2⟩)]⟩ "a.dcm" ⟨5, 5, 5, 5⟩
    (by decide) (by decide)).2.2.1 rfl

/-- C2: for any two drag corners in either order, `on_select` stores for
the current file the box with x, y the coordinatewise minima and width,
height the absolute differences, and swapping the two corners produces
the identical state. -/
theorem c2_on_select_corner_order (s : Session) (x1 y1 x2 y2 : Rat)
    (h : s.currentIndex < s.files.length) :
    dictLookup (on_select s x1 y1 x2 y2).annotations (currentFile s)
      = some ⟨min x1 x2, min y1 y2, |x2 - x1|, |y2 - y1|⟩
    ∧ on_select s x1 y1 x2 y2 = on_select s x2 y2 x1 y1 := by
  constructor
  · simp only [on_select]
    exact dictLookup_insert_self _ _ _
  · simp only [on_select]
    rw [min_comm x2 x1, min_comm y2 y1, abs_sub_comm x1 x2, abs_sub_comm y1 y2]

/-- Witness for C2: swapping the corners (1,2)-(0,5) changes nothing. -/
theorem c2_on_select_corner_order_witness :
    on_select ⟨["a.dcm"], 0, [], []⟩ 1 2 0 5 = on_select ⟨["a.dcm"], 0, [], []⟩ 0 5 1 2 :=
  (c2_on_select_corner_order ⟨["a.dcm"], 0, [], []⟩ 1 2 0 5 (by decide)).2

/-- C3: a file written by a save (its rows are a dict with one row per
file name) loads back as exactly that dict, and saving a session whose
existing layer is that dict and whose session layer holds only copies of
its entries (as navigation produces) writes exactly the original rows. -/
theorem c3_save_load_roundtrip (R : AnnDict) (r : Rat → String) (s : Session)
    (hR : (dictKeys R).Nodup)
    (hr : ∀ p ∈ R, parseFloat (r p.2.x) = some p.2.x ∧ parseFloat (r p.2.y) = some p.2.y ∧
      parseFloat (r p.2.width) = some p.2.width ∧ parseFloat (r p.2.height) = some p.2.height)
    (hs1 : s.existing_annotations = R)
    (hs2 : (dictKeys s.annotations).Nodup)
    (hs3 : ∀ k v, dictLookup s.annotations k = some v → dictLookup R k = some v) :
    load_existing_annotations (some (renderCsv r R)) = Except.ok R
    ∧ save_annotations s = R := by
  constructor
  · have h := loadRows_renderCsv r R [] hr (by simpa using hR)
    simpa [renderCsv, load_existing_annotations] using h
  · rw [save_annotations, hs1]
    exact dictMerge_eq_left s.annotations R hR hs2 hs3

/-- Witness for C3 with a one-row file and a fresh session. -/
theorem c3_save_load_roundtrip_witness :
    load_existing_annotations (some (renderCsv
        (fun q => if q = 1 then "1" else if q = 2 then "2" else if q = 3 then "3" else "4")
        [("a.dcm", ⟨1, 2, 3, 4⟩)]))
      = Except.ok [("a.dcm", ⟨1, 2, 3, 4⟩)]
    ∧ save_annotations ⟨["a.dcm"], 0, [], [("a.dcm", ⟨1, 2, 3, 4⟩)]⟩
      = [("a.dcm", ⟨1, 2, 3, 4⟩)] :=
  c3_save_load_roundtrip [("a.dcm", ⟨1, 2, 3, 4⟩)]
    (fun q => if q = 1 then "1" else if q = 2 then "2" else if q = 3 then "3" else "4")
    ⟨["a.dcm"], 0, [], [("a.dcm", ⟨1, 2, 3, 4⟩)]⟩
    (by decide)
    (by
      intro p hp
      rw [List.mem_singleton] at hp
      subst hp
      exact ⟨by decide, by decide, by decide, by decide⟩)
    rfl
    List.nodup_nil
    (fun k v h => by simp [dictLookup] at h)

/-- C4: when the directory holds at least one DICOM match the enumerated
list is exactly the DICOM matches and contains no JPG or PNG file; the
JPG/PNG fallback list (JPG matches before PNG matches) is used only when
there is no DICOM match, so the families are never combined. -/
theorem c4_dicom_takes_priority (files : List String) (f : String) :
    (files.filter isDicomFile ≠ [] →
      scan_directory files = Except.ok (files.filter isDicomFile)
      ∧ (f ∈ files.filter isDicomFile → isJpgFile f = false ∧ isPngFile f = false))
    ∧ (files.filter isDicomFile = [] →
        files.filter isJpgFile ++ files.filter isPngFile ≠ [] →
        scan_directory files = Except.ok (files.filter isJpgFile ++ files.filter isPngFile)) := by
  constructor
  · intro hne
    constructor
    · simp [scan_directory, List.isEmpty_iff, hne]
    · intro hf
      have hd : isDicomFile f = true := List.of_mem_filter hf
      exact ⟨dicom_not_jpg f hd, dicom_not_png f hd⟩
  · intro hd hne
    simp [scan_directory, hd, List.isEmpty_iff, hne]

/-- Witness for C4 on a directory with one DICOM and one JPG file. -/
theorem c4_dicom_takes_priority_witness :
    scan_directory ["a.dcm", "b.jpg"] = Except.ok ["a.dcm"]
    ∧ isJpgFile "a.dcm" = false :=
  ⟨((c4_dicom_takes_priority ["a.dcm", "b.jpg"] "a.dcm").1 (by decide)).1,
   (((c4_dicom_takes_priority ["a.dcm", "b.jpg"] "a.dcm").1 (by decide)).2 (by decide)).1⟩

/-- C5: when the directory holds no DICOM, JPG or PNG file, a run exits
through the scanner's fatal error before handling any event, so no
output file is written, whatever events would have followed. -/
theorem c5_no_files_fatal (dec : String → Bool) (ex : Option (List (List String)))
    (files : List String) (events : List Event) (l : AnnDict)
    (hload : load_existing_annotations ex = Except.ok l)
    (h1 : files.filter isDicomFile = [])
    (h2 : files.filter isJpgFile = [])
    (h3 : files.filter isPngFile = []) :
    runProgram dec ex files events = Except.error (ProgErr.scan ScanErr.noFiles) := by
  have hscan : scan_directory files = Except.error ScanErr.noFiles := by
    simp [scan_directory, h1, h2, h3]
  unfold runProgram
  rw [hload, hscan]
  rfl

/-- Witness for C5: a directory with a single text file. -/
theorem c5_no_files_fatal_witness :
    runProgram (fun _ => true) none ["notes.txt"] [Event.save]
      = Except.error (ProgErr.scan ScanErr.noFiles) :=
  c5_no_files_fatal (fun _ => true) none ["notes.txt"] [Event.save] [] rfl rfl rfl rfl

/-- C6 as stated fails on the code: a data row with five fields whose
numeric fields are not numeric text makes the load raise a ValueError
instead of accepting the row. -/
theorem c6_counterexample_bad_field :
    List.length ["img1.dcm", "a", "b", "c", "d"] = 5
    ∧ load_existing_annotations
        (some [["filename", "x", "y", "width", "height"], ["img1.dcm", "a", "b", "c", "d"]])
      = Except.error LoadErr.badFloat :=
  ⟨rfl, rfl⟩

/-- C6 (amended): rows with fewer than 5 fields are skipped silently,
contributing nothing; when every row of at least 5 fields has numeric
fields that parse as floats, the load succeeds and binds each such
row's file name; a 5-field row with a non-numeric field aborts the load
with an error instead. -/
theorem c6_short_rows_skipped (header : List String) (rows : List (List String)) :
    load_existing_annotations (some (header :: rows))
      = load_existing_annotations
          (some (header :: rows.filter (fun row => decide (5 ≤ row.length))))
    ∧ ((∀ row ∈ rows, 5 ≤ row.length → (parseRowFields row).isSome) →
        ∃ d, load_existing_annotations (some (header :: rows)) = Except.ok d
          ∧ ∀ row ∈ rows, 5 ≤ row.length → (dictLookup d (row.headD "")).isSome) := by
  constructor
  · exact loadRows_filter rows []
  · intro hp
    obtain ⟨d, hd, _, hacc⟩ := loadRows_ok_of_parses rows [] hp
    exact ⟨d, hd, hacc⟩

/-- Witness for C6 (amended): a 2-field row is dropped with no effect. -/
theorem c6_short_rows_skipped_witness :
    load_existing_annotations (some [["filename", "x", "y", "width", "height"],
        ["short", "1"], ["img1.dcm", "1", "2", "3", "4"]])
      = load_existing_annotations (some [["filename", "x", "y", "width", "height"],
        ["img1.dcm", "1", "2", "3", "4"]]) :=
  (c6_short_rows_skipped ["filename", "x", "y", "width", "height"]
    [["short", "1"], ["img1.dcm", "1", "2", "3", "4"]]).1

/-- C7: with a non-empty file list and a valid index, every event keeps
the file list and the index invariant 0 ≤ index < length, and Next at
the last index and Previous at index 0 leave the state unchanged. -/
theorem c7_navigation_clamped (dec : String → Bool) (s : Session) (e : Event)
    (h0 : s.files ≠ []) (h : s.currentIndex < s.files.length) :
    ((step dec s e).1.files = s.files ∧ (step dec s e).1.currentIndex < s.files.length)
    ∧ (s.currentIndex = s.files.length - 1 → (step dec s Event.next).1 = s)
    ∧ (s.currentIndex = 0 → (step dec s Event.prev).1 = s) := by
  have hlen : 0 < s.files.length := List.length_pos.mpr h0
  refine ⟨?_, ?_, ?_⟩
  · cases e with
    | next =>
      simp only [step, next_image]
      split
      · rename_i hlt
        refine ⟨load_current_image_update_files dec _, ?_⟩
        rw [load_current_image_update_index]
        show s.currentIndex + 1 < s.files.length
        omega
      · exact ⟨rfl, h⟩
    | prev =>
      simp only [step, previous_image]
      split
      · rename_i hpos
        refine ⟨load_current_image_update_files dec _, ?_⟩
        rw [load_current_image_update_index]
        show s.currentIndex - 1 < s.files.length
        omega
      · exact ⟨rfl, h⟩
    | select x1 y1 x2 y2 => exact ⟨rfl, h⟩
    | save => exact ⟨rfl, h⟩
  · intro hlast
    have hno : ¬((s.currentIndex : Int) < (s.files.length : Int) - 1) := by omega
    simp only [step, next_image, hno, if_false]
  · intro hzero
    have hno : ¬(0 < s.currentIndex) := by omega
    simp only [step, previous_image, hno, if_false]

/-- Witness for C7: Next at the last index of a two-file list. -/
theorem c7_navigation_clamped_witness :
    (step (fun _ => true) ⟨["a.dcm", "b.dcm"], 1, [], []⟩ Event.next).1
      = ⟨["a.dcm", "b.dcm"], 1, [], []⟩ :=
  (c7_navigation_clamped (fun _ => true) ⟨["a.dcm", "b.dcm"], 1, [], []⟩ Event.next
    (by decide) (by decide)).2.1 rfl

/-- C8: the save handler leaves the whole state unchanged, so saving a
second time with no intervening edits emits the identical rows, hence
an identical output file. -/
theorem c8_save_idempotent (dec : String → Bool) (s : Session) :
    (step dec s Event.save).1 = s
    ∧ (step dec (step dec s Event.save).1 Event.save).2 = (step dec s Event.save).2 :=
  ⟨rfl, rfl⟩

/-- C9: display normalization skips the rescale on an image whose
maximum pixel value is 0 and still succeeds, and it succeeds on every
image: the dividing rescale runs only under the positive-maximum guard. -/
theorem c9_rescale_guarded (image : List Nat) :
    (maxPixel image = 0 → normalize_for_display image = some image)
    ∧ (normalize_for_display image).isSome := by
  constructor
  · intro h
    simp [normalize_for_display, h]
  · by_cases h : 0 < maxPixel image
    · simp only [normalize_for_display, h, if_true]
      exact rescaleAll_isSome _ (by omega) image
    · simp [normalize_for_display, h]

/-- Witness for C9: the all-black three-pixel image renders unchanged. -/
theorem c9_rescale_guarded_witness :
    normalize_for_display [0, 0, 0] = some [0, 0, 0] :=
  (c9_rescale_guarded [0, 0, 0]).1 rfl

/-- C10: loading tolerates only a missing output file (empty layer, no
error); an existing file with zero rows fails the header read, so the
program dies at startup instead of starting with an empty layer. -/
theorem c10_empty_file_errors :
    load_existing_annotations (some []) = Except.error LoadErr.emptyFile
    ∧ load_existing_annotations none = Except.ok [] :=
  ⟨rfl, rfl⟩

end XRayLabeler
